import Mathlib

/-!
Shallow embedding of the OPC-UA CSV replay simulator: the dataset store
(`opcua_sim/data_manager.py`, class `CSVDataManager`) and the replay engine
(`opcua_sim/opcua_server.py`, class `OPCUASimulator`).

Modelling conventions:
* Python floats are modelled as exact rationals (`ℚ`); binary rounding is not
  modelled.  `float("inf")`, `"nan"` and underscore digit grouping are outside
  the modelled literal fragment.
* Strings are treated as ASCII character lists for the case/strip operations.
* Filesystem paths are absolute component lists; `Path.resolve()` is modelled
  lexically (symlinks are out of scope).
* Effects that the Python code obtains from the environment (current UTC time,
  a written file's new modification time) are explicit parameters.
-/

deriving instance DecidableEq for Except

namespace OpcuaSim

/-- Python `str.strip()` with no argument: drop whitespace from both ends. -/
def pyStrip (s : String) : String :=
  String.mk (((s.data.dropWhile Char.isWhitespace).reverse.dropWhile Char.isWhitespace).reverse)

/-- Python `str.lower()` on a character list (ASCII case mapping). -/
def lowerL (cs : List Char) : List Char := cs.map Char.toLower

/-- Python `str.lower()` for strings. -/
def lowerStr (s : String) : String := String.mk (lowerL s.data)

/-- Numeric value of a list of decimal digit characters, most significant first. -/
def digitsVal (ds : List Char) : ℕ := ds.foldl (fun a c => a * 10 + (c.toNat - '0'.toNat)) 0

/-- The syntactic pieces of an accepted float literal: mantissa sign, integer
part, fractional part with its digit count, exponent sign and value. -/
structure FloatLit where
  neg : Bool
  intPart : ℕ
  fracPart : ℕ
  fracLen : ℕ
  expNeg : Bool
  expVal : ℕ
deriving DecidableEq, Repr

/-- Exponent tail of a float literal: optional sign then a nonempty digit run,
nothing after it. -/
def scanFloatExp (cs : List Char) : Option (Bool × ℕ) :=
  let p : Bool × List Char :=
    match cs with
    | '+' :: t => (false, t)
    | '-' :: t => (true, t)
    | t => (false, t)
  let ed := p.2.takeWhile Char.isDigit
  let rest := p.2.dropWhile Char.isDigit
  if ed = [] ∨ rest ≠ [] then none
  else some (p.1, digitsVal ed)

/-- Lexical part of CPython `float(str)` on finite decimal literals:
surrounding whitespace stripped, optional sign, integer and/or fractional
digit part, optional `e`/`E` exponent.  `none` models a raised `ValueError`. -/
def scanFloat (s : String) : Option FloatLit :=
  let cs0 := (pyStrip s).data
  let sp : Bool × List Char :=
    match cs0 with
    | '+' :: t => (false, t)
    | '-' :: t => (true, t)
    | t => (false, t)
  let ip := sp.2.takeWhile Char.isDigit
  let cs2 := sp.2.dropWhile Char.isDigit
  let fr : List Char × List Char :=
    match cs2 with
    | '.' :: t => (t.takeWhile Char.isDigit, t.dropWhile Char.isDigit)
    | t => ([], t)
  if ip = [] ∧ fr.1 = [] then none
  else
    match fr.2 with
    | [] => some ⟨sp.1, digitsVal ip, digitsVal fr.1, fr.1.length, false, 0⟩
    | 'e' :: t => (scanFloatExp t).map fun e => ⟨sp.1, digitsVal ip, digitsVal fr.1, fr.1.length, e.1, e.2⟩
    | 'E' :: t => (scanFloatExp t).map fun e => ⟨sp.1, digitsVal ip, digitsVal fr.1, fr.1.length, e.1, e.2⟩
    | _ => none

/-- The rational value denoted by an accepted float literal. -/
def FloatLit.val (f : FloatLit) : ℚ :=
  let m : ℚ := (f.intPart : ℚ) + (f.fracPart : ℚ) / (10 : ℚ) ^ f.fracLen
  let sm : ℚ := if f.neg then -m else m
  if f.expNeg then sm / (10 : ℚ) ^ f.expVal else sm * (10 : ℚ) ^ f.expVal

/-- Model of CPython `float(str)`: the value of the scanned literal. -/
def parsePyFloat (s : String) : Option ℚ := (scanFloat s).map FloatLit.val

/-- A raw cell value of a dataframe.  `pynone` models Python `None` (a missing
key or a not-filled `NaN`), `num` a numeric cell, `str` a string cell. -/
inductive Cell where
  | pynone : Cell
  | num : ℚ → Cell
  | str : String → Cell
deriving DecidableEq, Repr

/-- Model of Python `float(value)` applied to a cell; `none` models a raised
`TypeError` (on `None`) or `ValueError` (on an unparsable string). -/
def pyFloat : Cell → Option ℚ
  | .pynone => none
  | .num q => some q
  | .str s => parsePyFloat s

/-- `OPCUASimulator._coerce_numeric`: `float(value)` with `TypeError` and
`ValueError` caught and turned into `0.0`. -/
def coerce_numeric (v : Cell) : ℚ := (pyFloat v).getD 0

example : scanFloat "3.14" = some ⟨false, 3, 14, 2, false, 0⟩ := by decide
example : scanFloat "abc" = none := by decide
example : scanFloat "" = none := by decide
example : scanFloat " -2.5e1 " = some ⟨true, 2, 5, 1, false, 1⟩ := by decide
example : scanFloat "1.e2" = some ⟨false, 1, 0, 0, false, 2⟩ := by decide
example : scanFloat "+-1" = none := by decide
example : coerce_numeric (.str "3.14") = 157 / 50 := by
  rw [coerce_numeric, pyFloat, parsePyFloat,
    show scanFloat "3.14" = some ⟨false, 3, 14, 2, false, 0⟩ from by decide]
  norm_num [FloatLit.val]
example : coerce_numeric (.str "abc") = 0 := by
  rw [coerce_numeric, pyFloat, parsePyFloat,
    show scanFloat "abc" = none from by decide]
  rfl
example : pyFloat (.str "3.14") = some (FloatLit.val ⟨false, 3, 14, 2, false, 0⟩) := rfl

/-! ## Dataframes -/

/-- A parsed dataframe: the header columns and the rows, each row a cell list
aligned with the columns. -/
structure DataFrame where
  columns : List String
  rows : List (List Cell)
deriving DecidableEq, Repr

/-- Pandas `df.empty`: true when either axis has length zero. -/
def DataFrame.isEmptyDf (df : DataFrame) : Bool :=
  df.rows.isEmpty || df.columns.isEmpty

/-- Lookup in an association list, first match wins (Python dict lookup; the
dict-building helpers below keep keys unique). -/
def assoc {κ α : Type} [DecidableEq κ] : List (κ × α) → κ → Option α
  | [], _ => none
  | p :: t, c => if p.1 = c then some p.2 else assoc t c

/-- Python dict insertion `d[k] = v` on an association list: overwrite in place
when the key is present, append otherwise. -/
def dictInsert {κ α : Type} [DecidableEq κ] (m : List (κ × α)) (k : κ) (v : α) : List (κ × α) :=
  if m.any (fun p => p.1 = k) then m.map (fun p => if p.1 = k then (k, v) else p)
  else m ++ [(k, v)]

/-- Label lookup `row[column]` of a pandas row against its columns, first
matching column wins; a missing label is modelled as `pynone`. -/
def rowGet (columns : List String) (row : List Cell) (c : String) : Cell :=
  (assoc (columns.zip row) c).getD .pynone

/-- One record of `df.to_dict(orient="records")`: a dict from column name to
cell (a duplicated column name keeps the last cell, as a Python dict would). -/
def rowRecord (columns : List String) (row : List Cell) : List (String × Cell) :=
  (columns.zip row).foldl (fun m p => dictInsert m p.1 p.2) []

/-- `df.to_dict(orient="records")`: the rows as dicts, in file row order. -/
def toRecords (df : DataFrame) : List (List (String × Cell)) :=
  df.rows.map (rowRecord df.columns)

/-- Python `record.get(column)`: `None` (modelled `pynone`) when missing. -/
def recordGet (r : List (String × Cell)) (c : String) : Cell :=
  (assoc r c).getD .pynone

/-! ## The generator returned by `CSVDataManager.iter_value_columns`

`iter_value_columns` is a generator function (its body uses `yield`), so each
call returns a fresh single-use generator over `df.columns`.  The model keeps
the not-yet-consumed column list; consuming the generator (as `list(...)`
does) yields the filtered columns and leaves the generator exhausted. -/

/-- A generator object produced by one call of `iter_value_columns`:
the columns still to be scanned and the configured (lowercased) time column. -/
structure ColGen where
  remaining : List String
  tc : String
deriving DecidableEq, Repr

/-- `CSVDataManager.iter_value_columns(df)`: returns a fresh generator; no body
code runs until it is iterated. -/
def iter_value_columns (tc : String) (df : DataFrame) : ColGen :=
  ⟨df.columns, tc⟩

/-- Iterating a generator to the end (`list(gen)`): yields every remaining
column whose lowercased name differs from the time column, and exhausts the
generator. -/
def ColGen.consume (g : ColGen) : List String × ColGen :=
  (g.remaining.filter (fun c => decide (lowerStr c ≠ g.tc)), ⟨[], g.tc⟩)

/-! ## Paths and the filesystem

A resolved path is an absolute component list (`["data", "a.csv"]` stands for
`/data/a.csv`).  `Path.resolve()` is modelled lexically: `.`, `..` and empty
components are folded away against the prefix. -/

/-- One step of lexical resolution. -/
def resolveStep (acc : List String) (c : String) : List String :=
  if c = "" ∨ c = "." then acc
  else if c = ".." then acc.dropLast
  else acc ++ [c]

/-- Lexical `Path.resolve()` of an absolute component list. -/
def resolveAbs (comps : List String) : List String :=
  comps.foldl resolveStep []

/-- Split a character list on `/`, keeping empty pieces (they are filtered by
the caller). -/
def splitSlashAux : List Char → List Char → List (List Char)
  | [], acc => [acc.reverse]
  | c :: t, acc => if c = '/' then acc.reverse :: splitSlashAux t [] else splitSlashAux t (c :: acc)

/-- Parse a path string the way `pathlib.Path` splits it: an absolute flag and
the slash-separated components with empty and `.` components dropped. -/
def parsePath (s : String) : Bool × List String :=
  (match s.data with | '/' :: _ => true | _ => false,
   ((splitSlashAux s.data []).map String.mk).filter
     (fun c => decide (c ≠ "") && decide (c ≠ ".")))

/-- `Path(filename)` followed by `self.data_dir / path` when relative
(`CSVDataManager.set_active_file`, first lines). -/
def joinName (dataDir : List String) (s : String) : List String :=
  let p := parsePath s
  if p.1 then p.2 else dataDir ++ p.2

/-- `path.is_relative_to(dir)` for two resolved absolute paths: `dir` is a
component prefix of `path`. -/
def underDir (dir p : List String) : Bool :=
  dir.isPrefixOf p

/-- A stored CSV file: its modification time and its parsed-but-not-yet-filled
dataframe (cells that pandas read as NaN are `pynone`). -/
structure FileRec where
  mtime : ℕ
  raw : DataFrame
deriving DecidableEq, Repr

/-- The filesystem visible to the store: resolved path to file record. -/
abbrev FS := List (List String × FileRec)

/-- `pd.read_csv(path).fillna(0)`: replace every missing cell with numeric 0. -/
def read_csv_fillna (raw : DataFrame) : DataFrame :=
  ⟨raw.columns, raw.rows.map (List.map (fun c => match c with | .pynone => .num 0 | c => c))⟩

/-! ## The dataset store (`CSVDataManager`) -/

/-- Errors surfaced by the store: `FileNotFoundError` and `ValueError`. -/
inductive StoreErr where
  | fileNotFound : StoreErr
  | valueError : StoreErr
deriving DecidableEq, Repr

/-- The mutable state of a `CSVDataManager`: the resolved sandbox root, the
lowercased time column, the single cache entry and the active pointer. -/
structure Store where
  data_dir : List String
  time_column : String
  cache_path : Option (List String)
  cache_mtime : Option ℕ
  cached_df : Option DataFrame
  active_file : Option (List String)
deriving DecidableEq, Repr

/-- `CSVDataManager.set_active_file`: resolve the name against the sandbox
root, fail if the file does not exist or escapes the root, otherwise swap the
active pointer and invalidate the cache.  The returned store is the state at
return or raise time. -/
def set_active_file (st : Store) (fs : FS) (filename : String) : Except StoreErr (List String) × Store :=
  let path := resolveAbs (joinName st.data_dir filename)
  if (assoc fs path).isNone then (.error .fileNotFound, st)
  else if underDir st.data_dir path = false then (.error .valueError, st)
  else (.ok path,
    { st with active_file := some path, cache_path := none, cache_mtime := none, cached_df := none })

/-- `CSVDataManager.get_dataframe`: serve the active file from the one-entry
cache when path and mtime match, otherwise parse from disk and replace the
cache entry.  The trailing boolean observes which branch ran (`true` = cache
hit); `.copy()` is the identity in this pure model. -/
def get_dataframe (st : Store) (fs : FS) : Except StoreErr DataFrame × Store × Bool :=
  match st.active_file with
  | none => (.error .fileNotFound, st, false)
  | some path =>
    match assoc fs path with
    | none => (.error .fileNotFound, st, false)
    | some file =>
      let df := read_csv_fillna file.raw
      let freshSt : Store :=
        { st with cache_path := some path, cache_mtime := some file.mtime, cached_df := some df }
      match st.cached_df with
      | some cdf =>
        if st.cache_path = some path ∧ st.cache_mtime = some file.mtime then (.ok cdf, st, true)
        else (.ok df, freshSt, false)
      | none => (.ok df, freshSt, false)

/-! ## `save_upload` helpers: `werkzeug.utils.secure_filename`, `Path.stem`,
`datetime.utcnow().strftime("%Y%m%d-%H%M%S")` -/

/-- The `encode("ascii", "ignore")` step of `secure_filename`: non-ASCII
characters are dropped (the NFKD step is the identity on the ASCII fragment
modelled here). -/
def asciiOnly (cs : List Char) : List Char := cs.filter (fun c => decide (c.toNat < 128))

/-- The `filename.replace(os.sep, " ")` step (POSIX: `os.sep` is `/`,
`os.path.altsep` is `None`). -/
def sepToSpace (cs : List Char) : List Char := cs.map (fun c => if c = '/' then ' ' else c)

/-- Python `str.split()` with no argument: split on whitespace runs, dropping
empty pieces.  `acc` holds the current word reversed. -/
def splitWsAux : List Char → List Char → List (List Char)
  | [], acc => if acc.isEmpty then [] else [acc.reverse]
  | c :: t, acc =>
    if c.isWhitespace then
      if acc.isEmpty then splitWsAux t [] else acc.reverse :: splitWsAux t []
    else splitWsAux t (c :: acc)

/-- The character class kept by `_filename_ascii_strip_re`: `[A-Za-z0-9_.-]`. -/
def keepFilenameChar (c : Char) : Bool :=
  c.isAlphanum || c == '_' || c == '.' || c == '-'

/-- Python `str.strip("._")`. -/
def stripDotUnderscore (cs : List Char) : List Char :=
  ((cs.dropWhile fun c => c == '.' || c == '_').reverse.dropWhile
    (fun c => c == '.' || c == '_')).reverse

/-- `werkzeug.utils.secure_filename` on POSIX for ASCII input: path separators
become spaces, whitespace runs become `_`, characters outside `[A-Za-z0-9_.-]`
are removed, and leading/trailing `.`/`_` are stripped. -/
def secure_filename (filename : String) : String :=
  let cs := sepToSpace (asciiOnly filename.data)
  let joined := List.intercalate ['_'] (splitWsAux cs [])
  String.mk (stripDotUnderscore (joined.filter keepFilenameChar))

/-- Index of the last `.` of a name, if any. -/
def rfindDot (cs : List Char) : Option ℕ :=
  match cs.reverse.findIdx? (fun c => c == '.') with
  | none => none
  | some j => some (cs.length - 1 - j)

/-- `pathlib.PurePath.stem` of a bare file name (no separators): the name
without its suffix; the suffix exists only when the last dot is neither the
first nor past the second-to-last character. -/
def pathStem (name : String) : String :=
  match rfindDot name.data with
  | some i => if 0 < i ∧ i < name.data.length - 1 then String.mk (name.data.take i) else name
  | none => name

/-- A `datetime.utcnow()` value, supplied to `save_upload` as an explicit
parameter. -/
structure PyDateTime where
  year : ℕ
  month : ℕ
  day : ℕ
  hour : ℕ
  minute : ℕ
  second : ℕ
deriving DecidableEq, Repr

/-- The low `w` decimal digits of `n`, zero padded — the `strftime` rendering
of a field whose value is below `10^w`. -/
def padDigits : ℕ → ℕ → List Char
  | 0, _ => []
  | w + 1, n => padDigits w (n / 10) ++ [Nat.digitChar (n % 10)]

/-- `now.strftime("%Y%m%d-%H%M%S")`. -/
def fmtTs (t : PyDateTime) : List Char :=
  padDigits 4 t.year ++ padDigits 2 t.month ++ padDigits 2 t.day ++ '-' ::
    (padDigits 2 t.hour ++ padDigits 2 t.minute ++ padDigits 2 t.second)

/-- The `f"{Path(filename).stem}_{timestamp}.csv"` target name of
`save_upload`. -/
def target_name (stem : String) (now : PyDateTime) : String :=
  String.mk (stem.data ++ '_' :: (fmtTs now ++ ['.', 'c', 's', 'v']))

/-- `CSVDataManager.save_upload`: reject a missing/empty filename and a
sanitized name without the `.csv` extension, build the timestamped target
inside the sandbox root, reject it if it escapes, else persist the content,
swap the active pointer and invalidate the cache.  The current UTC time and
the written file's new mtime are explicit parameters. -/
def save_upload (st : Store) (fs : FS) (filename? : Option String) (content : DataFrame)
    (now : PyDateTime) (newMtime : ℕ) : Except StoreErr (List String) × Store × FS :=
  match filename? with
  | none => (.error .valueError, st, fs)
  | some fn0 =>
    if fn0 = "" then (.error .valueError, st, fs)
    else
      let fn := secure_filename fn0
      if (List.isSuffixOf ['.', 'c', 's', 'v'] (lowerL fn.data)) = false then
        (.error .valueError, st, fs)
      else
        let tname := target_name (pathStem fn) now
        let target := resolveAbs (st.data_dir ++ [tname])
        if underDir st.data_dir target = false then (.error .valueError, st, fs)
        else
          (.ok target,
           { st with active_file := some target,
                     cache_path := none, cache_mtime := none, cached_df := none },
           dictInsert fs target ⟨newMtime, content⟩)

example : secure_filename "my file.csv" = "my_file.csv" := by decide
example : secure_filename "../../etc/passwd" = "etc_passwd" := by decide
example : pathStem "machine.csv" = "machine" := by decide
example : target_name "machine" ⟨2024, 5, 17, 12, 0, 3⟩ = "machine_20240517-120003.csv" := by decide

/-! ## SHA-1 (`hashlib.sha1(...).hexdigest()`), on naturals reduced mod 2^32 -/

/-- Truncate to a 32-bit word. -/
def w32 (n : ℕ) : ℕ := n % 4294967296

/-- Rotate a 32-bit word left by `k`. -/
def rotl32 (n k : ℕ) : ℕ := w32 ((n <<< k) ||| (n >>> (32 - k)))

/-- UTF-8 encoding of one character (`str.encode("utf-8")`). -/
def utf8Encode (c : Char) : List ℕ :=
  let n := c.toNat
  if n < 128 then [n]
  else if n < 2048 then [192 ||| (n >>> 6), 128 ||| (n &&& 63)]
  else if n < 65536 then
    [224 ||| (n >>> 12), 128 ||| ((n >>> 6) &&& 63), 128 ||| (n &&& 63)]
  else
    [240 ||| (n >>> 18), 128 ||| ((n >>> 12) &&& 63), 128 ||| ((n >>> 6) &&& 63), 128 ||| (n &&& 63)]

/-- UTF-8 bytes of a string. -/
def utf8Bytes (s : String) : List ℕ := (s.data.map utf8Encode).flatten

/-- SHA-1 message padding: `0x80`, zeros to 56 mod 64, 64-bit big-endian bit
length. -/
def sha1Pad (msg : List ℕ) : List ℕ :=
  let bitLen := 8 * msg.length
  let padZeros := (56 - ((msg.length + 1) % 64) + 64) % 64
  msg ++ 128 :: List.replicate padZeros 0 ++
    [56, 48, 40, 32, 24, 16, 8, 0].map (fun i => (bitLen >>> i) &&& 255)

/-- Split a byte list into 64-byte blocks. -/
def chunks64 : List ℕ → List (List ℕ)
  | [] => []
  | a :: t => ((a :: t).take 64) :: chunks64 (t.drop 63)
termination_by l => l.length
decreasing_by
  simp [List.length_drop]
  omega

/-- Big-endian 32-bit words from bytes. -/
def bytesToWords : List ℕ → List ℕ
  | b0 :: b1 :: b2 :: b3 :: rest => (((b0 * 256 + b1) * 256 + b2) * 256 + b3) :: bytesToWords rest
  | _ => []

/-- Extend the 16 schedule words by `k` more rotated-xor words. -/
def sha1ExtendAux : ℕ → List ℕ → List ℕ
  | 0, ws => ws
  | k + 1, ws =>
    let n := ws.length
    let x := (ws.getD (n - 3) 0) ^^^ (ws.getD (n - 8) 0) ^^^ (ws.getD (n - 14) 0) ^^^ (ws.getD (n - 16) 0)
    sha1ExtendAux k (ws ++ [rotl32 x 1])

/-- The SHA-1 round function for round `t`. -/
def sha1F (t b c d : ℕ) : ℕ :=
  if t < 20 then (b &&& c) ||| ((4294967295 ^^^ b) &&& d)
  else if t < 40 then b ^^^ c ^^^ d
  else if t < 60 then (b &&& c) ||| (b &&& d) ||| (c &&& d)
  else b ^^^ c ^^^ d

/-- The SHA-1 round constant for round `t`. -/
def sha1K (t : ℕ) : ℕ :=
  if t < 20 then 1518500249 else if t < 40 then 1859775393
  else if t < 60 then 2400959708 else 3395469782

/-- The five-word SHA-1 state. -/
abbrev H5 := ℕ × ℕ × ℕ × ℕ × ℕ

/-- One SHA-1 round applied to the state, given the round index and word. -/
def sha1Round (h : H5) (tw : ℕ × ℕ) : H5 :=
  let tmp := w32 (rotl32 h.1 5 + sha1F tw.1 h.2.1 h.2.2.1 h.2.2.2.1 + h.2.2.2.2 + sha1K tw.1 + tw.2)
  (tmp, h.1, rotl32 h.2.1 30, h.2.2.1, h.2.2.2.1)

/-- Process one 64-byte block. -/
def sha1Block (h : H5) (block : List ℕ) : H5 :=
  let ws := sha1ExtendAux 64 (bytesToWords block)
  let r := ((List.range 80).zip ws).foldl sha1Round h
  (w32 (h.1 + r.1), w32 (h.2.1 + r.2.1), w32 (h.2.2.1 + r.2.2.1),
   w32 (h.2.2.2.1 + r.2.2.2.1), w32 (h.2.2.2.2 + r.2.2.2.2))

/-- Lowercase hex rendering of a 32-bit word. -/
def wordHex8 (n : ℕ) : List Char :=
  [28, 24, 20, 16, 12, 8, 4, 0].map (fun i => Nat.digitChar ((n >>> i) &&& 15))

/-- `hashlib.sha1(msg).hexdigest()`. -/
def sha1Hex (msg : List ℕ) : String :=
  let h := (chunks64 (sha1Pad msg)).foldl sha1Block
    (1732584193, 4023233417, 2562383102, 271733878, 3285377520)
  String.mk (wordHex8 h.1 ++ wordHex8 h.2.1 ++ wordHex8 h.2.2.1 ++ wordHex8 h.2.2.2.1 ++ wordHex8 h.2.2.2.2)

/-! ## The replay engine (`OPCUASimulator`) -/

/-- An OPC UA node identifier: the string identifier and the namespace index
(`ua.NodeId(f"Tag_{digest}", self._namespace_index)`). -/
structure NodeId where
  ident : String
  nsIdx : ℕ
deriving DecidableEq, Repr

/-- A published variable node as the engine configures it through the server
gateway: identifier, display name, current value, writable flag. -/
structure UaNode where
  nodeId : NodeId
  displayName : String
  value : ℚ
  writable : Bool
deriving DecidableEq, Repr

/-- The mutable state of an `OPCUASimulator`: server/machine-object handles
(modelled by presence flags), the registered namespace index, the node map,
the known column set, and the worker-thread/running flags. -/
structure EngineState where
  hasServer : Bool
  namespaceIndex : Option ℕ
  hasMachineNode : Bool
  nodes : List (String × UaNode)
  knownColumns : Finset String
  threadAlive : Bool
  running : Bool
deriving DecidableEq

/-- The state built by `OPCUASimulator.__init__`. -/
def initEngine : EngineState :=
  ⟨false, none, false, [], ∅, false, false⟩

/-- `OPCUASimulator._make_node_id`: a deterministic identifier from the first
12 hex digits of the SHA-1 of the trimmed column name.  The Python method
reads `self._namespace_index` (raising `RuntimeError` when it is unset); the
registered index is passed explicitly here, as every caller runs after
`_setup_server`. -/
def make_node_id (nsIdx : ℕ) (column : String) : NodeId :=
  ⟨"Tag_" ++ String.mk ((sha1Hex (utf8Bytes (pyStrip column))).data.take 12), nsIdx⟩

/-- The variable node `_ensure_nodes` creates for one column:
`add_variable(self._make_node_id(column), column.strip(), initial_value)`
followed by `set_writable()`. -/
def mkColumnNode (nsIdx : ℕ) (df : DataFrame) (firstRow : Option (List Cell)) (column : String) : UaNode :=
  let initialValue : ℚ :=
    match firstRow with
    | some row => coerce_numeric (rowGet df.columns row column)
    | none => 0
  ⟨make_node_id nsIdx column, pyStrip column, initialValue, true⟩

/-- `OPCUASimulator._ensure_nodes`: if the value-column set is unchanged do
nothing; otherwise delete every published node (gateway side), clear the map,
record the new column set and create one node per column. -/
def ensure_nodes (tc : String) (nsIdx : ℕ) (s : EngineState) (df : DataFrame) : EngineState :=
  let columns := (iter_value_columns tc df).consume.1
  if columns.toFinset = s.knownColumns then s
  else
    let firstRow := if df.isEmptyDf then none else df.rows.head?
    let nodes := columns.foldl (fun m column => dictInsert m column (mkColumnNode nsIdx df firstRow column)) []
    { s with nodes := nodes, knownColumns := columns.toFinset }

/-- `OPCUASimulator._update_nodes`: write one record's coerced value to every
published node (`record.get(column)` is `None` for a missing key). -/
def update_nodes (s : EngineState) (r : List (String × Cell)) : EngineState :=
  { s with nodes := s.nodes.map (fun p => (p.1, { p.2 with value := coerce_numeric (recordGet r p.1) })) }

/-- Observable events of one worker-loop cycle. -/
inductive CycleEv where
  | reconcile : CycleEv
  | write : List (String × Cell) → CycleEv
  | sleepRow : CycleEv
  | sleepCycle : CycleEv
deriving DecidableEq, Repr

/-- The row-publishing loop of `_run`: before each record the running flag is
checked (`budget` is the number of checks that still return true; the loop
breaks when it reaches zero), then the record is written and the loop sleeps
one update interval. -/
def publishRows (s : EngineState) (records : List (List (String × Cell))) (budget : ℕ) :
    EngineState × List CycleEv :=
  match records, budget with
  | [], _ => (s, [])
  | _, 0 => (s, [])
  | r :: rest, b + 1 =>
    let s1 := update_nodes s r
    let next := publishRows s1 rest b
    (next.1, CycleEv.write r :: CycleEv.sleepRow :: next.2)

/-- One cycle of `OPCUASimulator._run` after a successful dataframe fetch with
the server initialised: reconcile, convert to records, then either sleep one
cycle delay (no rows) or publish each row and sleep one cycle delay. -/
def runCycle (tc : String) (nsIdx : ℕ) (s : EngineState) (df : DataFrame) (budget : ℕ) :
    EngineState × List CycleEv :=
  let s1 := ensure_nodes tc nsIdx s df
  let records := toRecords df
  if records.isEmpty then (s1, [CycleEv.reconcile, CycleEv.sleepCycle])
  else
    let next := publishRows s1 records budget
    (next.1, CycleEv.reconcile :: (next.2 ++ [CycleEv.sleepCycle]))

/-- Lifecycle events observable at the server gateway and thread layer. -/
inductive LifeEv where
  | registerNamespace : LifeEv
  | spawnThread : LifeEv
  | joinThread : LifeEv
  | stopEndpoint : LifeEv
deriving DecidableEq, Repr

/-- `OPCUASimulator._setup_server`: create the server, register the namespace
(the gateway returns an opaque index, modelled as 2), add the machine object,
start the endpoint. -/
def setup_server (s : EngineState) : EngineState × List LifeEv :=
  ({ s with hasServer := true, namespaceIndex := some 2, hasMachineNode := true },
   [LifeEv.registerNamespace])

/-- `OPCUASimulator.start`: return unchanged if a worker thread is alive, else
set up the server, set the running flag and spawn one worker. -/
def start (s : EngineState) : EngineState × List LifeEv :=
  if s.threadAlive then (s, [])
  else
    let p := setup_server s
    ({ p.1 with running := true, threadAlive := true }, p.2 ++ [LifeEv.spawnThread])

/-- `OPCUASimulator.stop`: clear the running flag, join the worker if alive
(after which the cooperative worker has exited), drop the thread handle, and
when a server exists stop it and reset every handle, the node map and the
known-column set. -/
def stop (s : EngineState) : EngineState × List LifeEv :=
  let evs := if s.threadAlive then [LifeEv.joinThread] else []
  let s1 : EngineState := { s with running := false, threadAlive := false }
  if s1.hasServer then (initEngine, evs ++ [LifeEv.stopEndpoint])
  else (s1, evs)

/-- The value-write events of a cycle trace, in order. -/
def writesOf (evs : List CycleEv) : List (List (String × Cell)) :=
  evs.filterMap (fun e => match e with | .write r => some r | _ => none)

/-! ## General lemmas about the dict and assoc helpers -/

theorem map_fst_replace {κ α : Type} [DecidableEq κ] (m : List (κ × α)) (k : κ) (v : α) :
    (m.map (fun p => if p.1 = k then (k, v) else p)).map Prod.fst =
      m.map (fun p => if p.1 = k then k else p.1) := by
  rw [List.map_map]
  apply List.map_congr_left
  intro p _
  by_cases hk : p.1 = k
  · simp [hk]
  · simp [hk]

theorem mem_keys_dictInsert {κ α : Type} [DecidableEq κ] (m : List (κ × α)) (k : κ) (v : α)
    (c : κ) : c ∈ (dictInsert m k v).map Prod.fst ↔ c ∈ m.map Prod.fst ∨ c = k := by
  unfold dictInsert
  by_cases h : m.any (fun p => p.1 = k)
  · rw [if_pos h, map_fst_replace]
    rw [List.any_eq_true] at h
    obtain ⟨p0, hp0, hk0⟩ := h
    simp only [decide_eq_true_eq] at hk0
    simp only [List.mem_map]
    constructor
    · rintro ⟨p, hp, he⟩
      by_cases hk : p.1 = k
      · right; rw [if_pos hk] at he; exact he.symm
      · left; rw [if_neg hk] at he; exact ⟨p, hp, he⟩
    · intro h2
      rcases h2 with ⟨p, hp, he⟩ | he
      · by_cases hk : p.1 = k
        · refine ⟨p0, hp0, ?_⟩
          rw [if_pos hk0, ← he, hk]
        · exact ⟨p, hp, by rw [if_neg hk]; exact he⟩
      · refine ⟨p0, hp0, ?_⟩
        rw [if_pos hk0, he]
  · rw [if_neg h]
    simp

theorem mem_keys_foldl_dictInsert {α : Type} (f : String → α) (cols : List String)
    (m : List (String × α)) (c : String) :
    c ∈ (cols.foldl (fun acc col => dictInsert acc col (f col)) m).map Prod.fst ↔
      c ∈ m.map Prod.fst ∨ c ∈ cols := by
  induction cols generalizing m with
  | nil => simp
  | cons a t ih =>
    rw [List.foldl_cons, ih, mem_keys_dictInsert]
    simp only [List.mem_cons]
    tauto

theorem assoc_eq_some_of_mem_keys {κ α : Type} [DecidableEq κ] (m : List (κ × α)) (c : κ)
    (h : c ∈ m.map Prod.fst) : ∃ v, assoc m c = some v := by
  induction m with
  | nil => simp at h
  | cons p t ih =>
    by_cases hk : p.1 = c
    · exact ⟨p.2, by simp [assoc, hk]⟩
    · simp only [List.map_cons, List.mem_cons] at h
      rcases h with h | h
      · exact absurd h.symm hk
      · obtain ⟨v, hv⟩ := ih h
        exact ⟨v, by simp [assoc, hk, hv]⟩

theorem mem_of_assoc_eq_some {κ α : Type} [DecidableEq κ] (m : List (κ × α)) (c : κ) (v : α)
    (h : assoc m c = some v) : (c, v) ∈ m := by
  induction m with
  | nil => simp [assoc] at h
  | cons p t ih =>
    by_cases hk : p.1 = c
    · simp only [assoc, if_pos hk, Option.some.injEq] at h
      have hpv : (c, v) = p := by
        rw [← hk, ← h]
      rw [hpv]
      exact List.mem_cons_self p t
    · simp only [assoc, if_neg hk] at h
      exact List.mem_cons_of_mem _ (ih h)

/-- Every value in a dict built by inserting `f key` at `key` is `f` of its
key. -/
def keyedBy {α : Type} (f : String → α) (m : List (String × α)) : Prop :=
  ∀ p ∈ m, p.2 = f p.1

theorem keyedBy_dictInsert {α : Type} (f : String → α) (m : List (String × α)) (k : String)
    (h : keyedBy f m) : keyedBy f (dictInsert m k (f k)) := by
  intro p hp
  unfold dictInsert at hp
  by_cases ha : m.any (fun q => q.1 = k)
  · rw [if_pos ha] at hp
    obtain ⟨q, hq, he⟩ := List.mem_map.mp hp
    by_cases hk : q.1 = k
    · rw [if_pos hk] at he
      rw [← he]
    · rw [if_neg hk] at he
      rw [← he]; exact h q hq
  · rw [if_neg ha] at hp
    rcases List.mem_append.mp hp with hp | hp
    · exact h p hp
    · simp only [List.mem_singleton] at hp
      rw [hp]

theorem keyedBy_foldl_dictInsert {α : Type} (f : String → α) (cols : List String)
    (m : List (String × α)) (h : keyedBy f m) :
    keyedBy f (cols.foldl (fun acc col => dictInsert acc col (f col)) m) := by
  induction cols generalizing m with
  | nil => exact h
  | cons a t ih => exact ih _ (keyedBy_dictInsert f m a h)

theorem assoc_append {κ α : Type} [DecidableEq κ] (m l : List (κ × α)) (c : κ) :
    assoc (m ++ l) c = (assoc m c).orElse (fun _ => assoc l c) := by
  induction m with
  | nil => simp [assoc]
  | cons p t ih =>
    by_cases hk : p.1 = c <;> simp [assoc, hk, ih]

theorem assoc_map_replace {κ α : Type} [DecidableEq κ] (m : List (κ × α)) (k : κ) (v : α)
    (c : κ) (hne : c ≠ k) :
    assoc (m.map (fun p => if p.1 = k then (k, v) else p)) c = assoc m c := by
  induction m with
  | nil => rfl
  | cons p t ih =>
    rw [List.map_cons]
    by_cases hk : p.1 = k
    · rw [if_pos hk]
      have h1 : ¬ (k = c) := fun h => hne h.symm
      have h2 : ¬ (p.1 = c) := by rw [hk]; exact h1
      show (if k = c then some v
            else assoc (t.map (fun p => if p.1 = k then (k, v) else p)) c) = assoc (p :: t) c
      rw [if_neg h1]
      show _ = (if p.1 = c then some p.2 else assoc t c)
      rw [if_neg h2, ih]
    · rw [if_neg hk]
      show (if p.1 = c then some p.2 else _) = (if p.1 = c then some p.2 else assoc t c)
      by_cases hc : p.1 = c
      · rw [if_pos hc, if_pos hc]
      · rw [if_neg hc, if_neg hc, ih]

theorem assoc_dictInsert_ne {κ α : Type} [DecidableEq κ] (m : List (κ × α)) (k : κ) (v : α)
    (c : κ) (hne : c ≠ k) : assoc (dictInsert m k v) c = assoc m c := by
  unfold dictInsert
  by_cases ha : m.any (fun q => q.1 = k)
  · rw [if_pos ha]
    exact assoc_map_replace m k v c hne
  · rw [if_neg ha, assoc_append]
    have h0 : assoc [(k, v)] c = none := by
      show (if k = c then some v else assoc [] c) = none
      rw [if_neg (fun h : k = c => hne h.symm)]
      rfl
    rw [h0]
    cases assoc m c <;> rfl

/-! ## Lemmas about cycle traces -/

theorem writesOf_nil : writesOf [] = [] := rfl

theorem writesOf_cons_write (r : List (String × Cell)) (evs : List CycleEv) :
    writesOf (CycleEv.write r :: evs) = r :: writesOf evs := by
  simp [writesOf, List.filterMap_cons]

theorem writesOf_cons_sleepRow (evs : List CycleEv) :
    writesOf (CycleEv.sleepRow :: evs) = writesOf evs := by
  simp [writesOf, List.filterMap_cons]

theorem writesOf_cons_reconcile (evs : List CycleEv) :
    writesOf (CycleEv.reconcile :: evs) = writesOf evs := by
  simp [writesOf, List.filterMap_cons]

theorem writesOf_append (a b : List CycleEv) :
    writesOf (a ++ b) = writesOf a ++ writesOf b := by
  simp [writesOf, List.filterMap_append]

theorem writesOf_publishRows (s : EngineState) (rs : List (List (String × Cell))) (b : ℕ) :
    writesOf (publishRows s rs b).2 = rs.take b := by
  induction rs generalizing s b with
  | nil => cases b <;> rfl
  | cons r t ih =>
    cases b with
    | zero => rfl
    | succ n =>
      show writesOf (CycleEv.write r :: CycleEv.sleepRow ::
        (publishRows (update_nodes s r) t n).2) = r :: t.take n
      rw [writesOf_cons_write, writesOf_cons_sleepRow, ih]

/-! ## Lemmas about upload target names and lexical resolution -/

theorem length_padDigits (w n : ℕ) : (padDigits w n).length = w := by
  induction w generalizing n with
  | zero => rfl
  | succ k ih => simp [padDigits, ih]

theorem length_fmtTs (t : PyDateTime) : (fmtTs t).length = 15 := by
  simp [fmtTs, length_padDigits]

theorem target_name_inj_ts (s1 s2 : String) (t1 t2 : PyDateTime)
    (hne : fmtTs t1 ≠ fmtTs t2) : target_name s1 t1 ≠ target_name s2 t2 := by
  intro he
  unfold target_name at he
  have hdata : s1.data ++ '_' :: (fmtTs t1 ++ ['.', 'c', 's', 'v'])
      = s2.data ++ '_' :: (fmtTs t2 ++ ['.', 'c', 's', 'v']) := by
    injection he
  have h2 : (s1.data ++ ['_']) ++ (fmtTs t1 ++ ['.', 'c', 's', 'v'])
      = (s2.data ++ ['_']) ++ (fmtTs t2 ++ ['.', 'c', 's', 'v']) := by
    simpa [List.append_assoc] using hdata
  have hlen : (fmtTs t1 ++ ['.', 'c', 's', 'v']).length
      = (fmtTs t2 ++ ['.', 'c', 's', 'v']).length := by
    simp [length_fmtTs]
  exact hne (List.append_cancel_right (List.append_inj' h2 hlen).2)

theorem target_name_ne_special (s : String) (t : PyDateTime) :
    target_name s t ≠ "" ∧ target_name s t ≠ "." ∧ target_name s t ≠ ".." := by
  have hlen : (target_name s t).data.length = s.data.length + 20 := by
    simp [target_name, length_fmtTs]
  refine ⟨?_, ?_, ?_⟩ <;> intro he
  · have h0 : (target_name s t).data.length = 0 := by rw [he]; rfl
    omega
  · have h0 : (target_name s t).data.length = 1 := by rw [he]; rfl
    omega
  · have h0 : (target_name s t).data.length = 2 := by rw [he]; rfl
    omega

theorem resolveAbs_append_normal (dd : List String) (c : String)
    (hdd : resolveAbs dd = dd) (hc : c ≠ "" ∧ c ≠ "." ∧ c ≠ "..") :
    resolveAbs (dd ++ [c]) = dd ++ [c] := by
  show List.foldl resolveStep [] (dd ++ [c]) = dd ++ [c]
  rw [List.foldl_append]
  show resolveStep (resolveAbs dd) c = dd ++ [c]
  rw [hdd]
  unfold resolveStep
  rw [if_neg (by tauto), if_neg hc.2.2]

/-- The path and filesystem a successful `save_upload` produces: the target is
the sandbox root extended by the timestamped name of the sanitized stem, and
the content is written there. -/
theorem save_upload_ok_shape (st : Store) (fs : FS) (fn : Option String) (content : DataFrame)
    (now : PyDateTime) (mt : ℕ) (p : List String)
    (hdd : resolveAbs st.data_dir = st.data_dir)
    (hok : (save_upload st fs fn content now mt).1 = Except.ok p) :
    ∃ fn0, fn = some fn0 ∧
      p = st.data_dir ++ [target_name (pathStem (secure_filename fn0)) now] ∧
      (save_upload st fs fn content now mt).2.2 = dictInsert fs p ⟨mt, content⟩ := by
  cases fn with
  | none => exact absurd hok (by simp [save_upload])
  | some fn0 =>
    refine ⟨fn0, rfl, ?_⟩
    have hres : resolveAbs (st.data_dir ++ [target_name (pathStem (secure_filename fn0)) now])
        = st.data_dir ++ [target_name (pathStem (secure_filename fn0)) now] :=
      resolveAbs_append_normal _ _ hdd (target_name_ne_special _ _)
    simp only [save_upload] at hok ⊢
    by_cases h0 : fn0 = ""
    · rw [if_pos h0] at hok
      exact absurd hok (by simp)
    · rw [if_neg h0] at hok ⊢
      by_cases hcsv :
          (List.isSuffixOf ['.', 'c', 's', 'v'] (lowerL (secure_filename fn0).data)) = false
      · rw [if_pos hcsv] at hok
        exact absurd hok (by simp)
      · rw [if_neg hcsv] at hok ⊢
        rw [hres] at hok ⊢
        by_cases hu : underDir st.data_dir
            (st.data_dir ++ [target_name (pathStem (secure_filename fn0)) now]) = false
        · rw [if_pos hu] at hok
          exact absurd hok (by simp)
        · rw [if_neg hu] at hok ⊢
          have hp : st.data_dir ++ [target_name (pathStem (secure_filename fn0)) now] = p := by
            simpa using hok
          rw [← hp]
          exact ⟨rfl, rfl⟩

/-! ## Claim theorems and witnesses -/

/-- C3: for every cell, the numeric coercion used for node writes returns the
parsed float value when `float(value)` succeeds and `0.0` when it raises; it
is a total function (it never propagates an exception), and on the spec's
concrete examples `"3.14"` coerces to `3.14` while `"abc"`, the empty string
and a missing value coerce to `0.0`. -/
theorem C3_coerce_numeric :
    (∀ v q, pyFloat v = some q → coerce_numeric v = q) ∧
    (∀ v, pyFloat v = none → coerce_numeric v = 0) ∧
    coerce_numeric (Cell.str "3.14") = 157 / 50 ∧
    coerce_numeric (Cell.str "abc") = 0 ∧
    coerce_numeric (Cell.str "") = 0 ∧
    coerce_numeric Cell.pynone = 0 := by
  refine ⟨?_, ?_, ?_, rfl, rfl, rfl⟩
  · intro v q h
    simp [coerce_numeric, h]
  · intro v h
    simp [coerce_numeric, h]
  · simp only [coerce_numeric,
      show pyFloat (Cell.str "3.14") = some (FloatLit.val ⟨false, 3, 14, 2, false, 0⟩) from rfl,
      Option.getD_some]
    norm_num [FloatLit.val]

/-- Witness for C3: the general clauses applied at `"3.14"` and `"abc"`. -/
theorem C3_coerce_numeric_witness :
    (pyFloat (Cell.str "3.14") = some (FloatLit.val ⟨false, 3, 14, 2, false, 0⟩) ∧
      coerce_numeric (Cell.str "3.14") = FloatLit.val ⟨false, 3, 14, 2, false, 0⟩) ∧
    (pyFloat (Cell.str "abc") = none ∧ coerce_numeric (Cell.str "abc") = 0) :=
  ⟨⟨rfl, C3_coerce_numeric.1 _ _ rfl⟩, ⟨rfl, C3_coerce_numeric.2.1 _ rfl⟩⟩

/-- C7 as stated is false: `iter_value_columns` yields the right column
sequence once, but its returned value is a single-use generator — iterating
it a second time yields the empty sequence, not the same sequence again. -/
theorem C7_counterexample :
    (iter_value_columns "sitetime" ⟨["siteTime", "temp", "pressure"], []⟩).consume.1
        = ["temp", "pressure"] ∧
    (iter_value_columns "sitetime" ⟨["siteTime", "temp", "pressure"], []⟩).consume.2.consume.1
        = [] ∧
    (iter_value_columns "sitetime" ⟨["siteTime", "temp", "pressure"], []⟩).consume.2.consume.1
        ≠ (iter_value_columns "sitetime" ⟨["siteTime", "temp", "pressure"], []⟩).consume.1 := by
  refine ⟨by decide, rfl, by decide⟩

/-- C7 amended: each call of `iter_value_columns` yields a finite sequence of
exactly the column names whose lowercased form differs from the configured
time column; the returned generator is single-use (a second iteration yields
the empty sequence), while calling `iter_value_columns` afresh restarts the
sequence. -/
theorem C7_value_columns (tc : String) (df : DataFrame) :
    (iter_value_columns tc df).consume.1
        = df.columns.filter (fun c => decide (lowerStr c ≠ tc)) ∧
    (∀ c, c ∈ (iter_value_columns tc df).consume.1 ↔ c ∈ df.columns ∧ lowerStr c ≠ tc) ∧
    (iter_value_columns tc df).consume.2.consume.1 = [] := by
  refine ⟨rfl, ?_, rfl⟩
  intro c
  simp [iter_value_columns, ColGen.consume, List.mem_filter]

/-- C2: in every worker-loop cycle the records written are exactly a prefix of
the dataset's records in file row order (the full list when no stop request
truncates the budget), and the reconciliation event is the first event of the
cycle, so it completes before the first value write. -/
theorem C2_cycle_order (tc : String) (nsIdx : ℕ) (s : EngineState) (df : DataFrame)
    (budget : ℕ) :
    writesOf (runCycle tc nsIdx s df budget).2 = (toRecords df).take budget ∧
    (runCycle tc nsIdx s df budget).2.head? = some CycleEv.reconcile := by
  simp only [runCycle]
  cases hrec : toRecords df with
  | nil =>
    refine ⟨?_, rfl⟩
    rw [List.take_nil]
    rfl
  | cons r t =>
    refine ⟨?_, rfl⟩
    show writesOf (CycleEv.reconcile ::
      ((publishRows (ensure_nodes tc nsIdx s df) (r :: t) budget).2 ++
        [CycleEv.sleepCycle])) = (r :: t).take budget
    rw [writesOf_cons_reconcile, writesOf_append, writesOf_publishRows]
    show (r :: t).take budget ++ [] = (r :: t).take budget
    rw [List.append_nil]

/-- C6: `start` is idempotent (a second call without an intervening `stop`
changes nothing, spawns no second worker and performs no second namespace
registration), `stop` before `start` and repeated `stop` are error-free
no-ops, and `stop` resets the engine state to its initial empty values. -/
theorem C6_lifecycle (s : EngineState)
    (hdead : s.threadAlive = false)
    (hsrv : s.hasServer = false →
      s.namespaceIndex = none ∧ s.hasMachineNode = false ∧ s.nodes = [] ∧
      s.knownColumns = ∅ ∧ s.running = false) :
    (start (start s).1).1 = (start s).1 ∧
    (start (start s).1).2 = [] ∧
    ((start s).2 ++ (start (start s).1).2).count LifeEv.spawnThread = 1 ∧
    ((start s).2 ++ (start (start s).1).2).count LifeEv.registerNamespace = 1 ∧
    stop initEngine = (initEngine, []) ∧
    (stop s).1 = initEngine ∧
    (stop (stop s).1).1 = (stop s).1 := by
  obtain ⟨sv, ns, mn, nds, kc, ta, rn⟩ := s
  simp only at hdead
  subst hdead
  have hreset : (stop ⟨sv, ns, mn, nds, kc, false, rn⟩).1 = initEngine := by
    cases sv with
    | true => rfl
    | false =>
      obtain ⟨h1, h2, h3, h4, h5⟩ := hsrv rfl
      simp only at h1 h2 h3 h4 h5
      subst h1; subst h2; subst h3; subst h4; subst h5
      rfl
  exact ⟨rfl, rfl, rfl, rfl, rfl, hreset, by rw [hreset]; rfl⟩

/-- Witness for C6 at the freshly constructed engine state. -/
theorem C6_lifecycle_witness :
    initEngine.threadAlive = false ∧
    ((start (start initEngine).1).1 = (start initEngine).1 ∧
     (start (start initEngine).1).2 = [] ∧
     ((start initEngine).2 ++ (start (start initEngine).1).2).count LifeEv.spawnThread = 1 ∧
     ((start initEngine).2 ++ (start (start initEngine).1).2).count LifeEv.registerNamespace = 1 ∧
     stop initEngine = (initEngine, []) ∧
     (stop initEngine).1 = initEngine ∧
     (stop (stop initEngine).1).1 = (stop initEngine).1) :=
  ⟨rfl, C6_lifecycle initEngine rfl (fun _ => ⟨rfl, rfl, rfl, rfl, rfl⟩)⟩

/-- C1: provided the engine invariant "the node map's key set is the known
column set" (true initially and re-established by every reconciliation and by
`stop`), a completed `_ensure_nodes` pass leaves the node map keyed by exactly
the dataset's value columns — the column names minus the case-insensitively
matched time column — with no extra and no missing key, for every input
dataset including one whose column set differs from the known set. -/
theorem C1_reconciled_keys (tc : String) (nsIdx : ℕ) (s : EngineState) (df : DataFrame)
    (hinv : (s.nodes.map Prod.fst).toFinset = s.knownColumns) :
    ((ensure_nodes tc nsIdx s df).nodes.map Prod.fst).toFinset
        = ((iter_value_columns tc df).consume.1).toFinset ∧
    (∀ c, c ∈ (ensure_nodes tc nsIdx s df).nodes.map Prod.fst ↔
      c ∈ df.columns ∧ lowerStr c ≠ tc) := by
  have hcols : ∀ c, c ∈ (iter_value_columns tc df).consume.1 ↔
      (c ∈ df.columns ∧ lowerStr c ≠ tc) := by
    intro c
    simp [iter_value_columns, ColGen.consume, List.mem_filter]
  by_cases h : ((iter_value_columns tc df).consume.1).toFinset = s.knownColumns
  · have hsame : ensure_nodes tc nsIdx s df = s := by
      simp only [ensure_nodes]
      rw [if_pos h]
    rw [hsame]
    refine ⟨by rw [hinv, h], ?_⟩
    intro c
    have hmt : (c ∈ s.nodes.map Prod.fst) ↔ c ∈ (s.nodes.map Prod.fst).toFinset :=
      (List.mem_toFinset).symm
    rw [hmt, hinv, ← h, List.mem_toFinset, hcols c]
  · have hnodes : (ensure_nodes tc nsIdx s df).nodes
        = ((iter_value_columns tc df).consume.1).foldl
            (fun acc col => dictInsert acc col
              (mkColumnNode nsIdx df (if df.isEmptyDf then none else df.rows.head?) col)) [] := by
      simp only [ensure_nodes]
      rw [if_neg h]
    rw [hnodes]
    constructor
    · apply Finset.ext
      intro c
      rw [List.mem_toFinset, List.mem_toFinset, mem_keys_foldl_dictInsert]
      simp
    · intro c
      rw [mem_keys_foldl_dictInsert, ← hcols c]
      simp

/-- Witness for C1: a fresh engine reconciled against a dataset with a time
column and two value columns. -/
theorem C1_reconciled_keys_witness :
    ((initEngine.nodes.map Prod.fst).toFinset = initEngine.knownColumns) ∧
    (((ensure_nodes "sitetime" 2 initEngine
          ⟨["siteTime", "temp", "pressure"], [[Cell.str "a", Cell.str "1", Cell.str "2"]]⟩).nodes.map
        Prod.fst).toFinset
      = ((iter_value_columns "sitetime"
          ⟨["siteTime", "temp", "pressure"], [[Cell.str "a", Cell.str "1", Cell.str "2"]]⟩).consume.1).toFinset ∧
     (∀ c, c ∈ (ensure_nodes "sitetime" 2 initEngine
          ⟨["siteTime", "temp", "pressure"], [[Cell.str "a", Cell.str "1", Cell.str "2"]]⟩).nodes.map Prod.fst ↔
        c ∈ (["siteTime", "temp", "pressure"] : List String) ∧ lowerStr c ≠ "sitetime")) :=
  ⟨rfl, C1_reconciled_keys "sitetime" 2 initEngine
    ⟨["siteTime", "temp", "pressure"], [[Cell.str "a", Cell.str "1", Cell.str "2"]]⟩ rfl⟩

/-- C9: the node-identifier derivation factors through the trimmed column
name — names equal after stripping get identical identifiers — and after a
reconciliation that rebuilds the map, a dataset containing two such distinct
columns has two node-map entries whose nodes share one address-space
identifier and one display name. -/
theorem C9_node_identity (nsIdx : ℕ) (c1 c2 : String) (hstrip : pyStrip c1 = pyStrip c2)
    (tc : String) (s : EngineState) (df : DataFrame)
    (hchange : ((iter_value_columns tc df).consume.1).toFinset ≠ s.knownColumns)
    (h1 : c1 ∈ (iter_value_columns tc df).consume.1)
    (h2 : c2 ∈ (iter_value_columns tc df).consume.1) :
    make_node_id nsIdx c1 = make_node_id nsIdx c2 ∧
    (∃ n1 n2, assoc (ensure_nodes tc nsIdx s df).nodes c1 = some n1 ∧
      assoc (ensure_nodes tc nsIdx s df).nodes c2 = some n2 ∧
      n1.nodeId = n2.nodeId ∧ n1.displayName = n2.displayName) := by
  have hid : make_node_id nsIdx c1 = make_node_id nsIdx c2 := by
    unfold make_node_id
    rw [hstrip]
  refine ⟨hid, ?_⟩
  have hnodes : (ensure_nodes tc nsIdx s df).nodes
      = ((iter_value_columns tc df).consume.1).foldl
          (fun acc col => dictInsert acc col
            (mkColumnNode nsIdx df (if df.isEmptyDf then none else df.rows.head?) col)) [] := by
    simp only [ensure_nodes]
    rw [if_neg hchange]
  have hkeyed : keyedBy (mkColumnNode nsIdx df (if df.isEmptyDf then none else df.rows.head?))
      ((ensure_nodes tc nsIdx s df).nodes) := by
    rw [hnodes]
    exact keyedBy_foldl_dictInsert _ _ [] (fun p hp => absurd hp (List.not_mem_nil p))
  have hget : ∀ c, c ∈ (iter_value_columns tc df).consume.1 →
      assoc (ensure_nodes tc nsIdx s df).nodes c
        = some (mkColumnNode nsIdx df (if df.isEmptyDf then none else df.rows.head?) c) := by
    intro c hc
    have hmem : c ∈ (ensure_nodes tc nsIdx s df).nodes.map Prod.fst := by
      rw [hnodes, mem_keys_foldl_dictInsert]
      exact Or.inr hc
    obtain ⟨v, hv⟩ := assoc_eq_some_of_mem_keys _ _ hmem
    have hin := mem_of_assoc_eq_some _ _ _ hv
    have := hkeyed (c, v) hin
    rw [hv]
    exact congrArg some this
  refine ⟨_, _, hget c1 h1, hget c2 h2, ?_, ?_⟩
  · show (make_node_id nsIdx c1) = (make_node_id nsIdx c2)
    exact hid
  · show pyStrip c1 = pyStrip c2
    exact hstrip

/-- Witness for C9: a dataset whose two value columns `"temp"` and `" temp "`
agree after stripping. -/
theorem C9_node_identity_witness :
    (pyStrip "temp" = pyStrip " temp " ∧
     ((iter_value_columns "sitetime"
        ⟨["temp", " temp "], [[Cell.str "1", Cell.str "2"]]⟩).consume.1).toFinset
          ≠ initEngine.knownColumns ∧
     "temp" ∈ (iter_value_columns "sitetime"
        ⟨["temp", " temp "], [[Cell.str "1", Cell.str "2"]]⟩).consume.1 ∧
     " temp " ∈ (iter_value_columns "sitetime"
        ⟨["temp", " temp "], [[Cell.str "1", Cell.str "2"]]⟩).consume.1) ∧
    (make_node_id 2 "temp" = make_node_id 2 " temp " ∧
     (∃ n1 n2,
        assoc (ensure_nodes "sitetime" 2 initEngine
          ⟨["temp", " temp "], [[Cell.str "1", Cell.str "2"]]⟩).nodes "temp" = some n1 ∧
        assoc (ensure_nodes "sitetime" 2 initEngine
          ⟨["temp", " temp "], [[Cell.str "1", Cell.str "2"]]⟩).nodes " temp " = some n2 ∧
        n1.nodeId = n2.nodeId ∧ n1.displayName = n2.displayName)) :=
  ⟨⟨by decide, by decide, by decide, by decide⟩,
   C9_node_identity 2 "temp" " temp " (by decide) "sitetime" initEngine
     ⟨["temp", " temp "], [[Cell.str "1", Cell.str "2"]]⟩ (by decide) (by decide) (by decide)⟩

/-- C10: `set_active_file` is atomic on error — whenever it raises, the
store's active pointer and cache entry are exactly as before the call. -/
theorem C10_error_atomic (st : Store) (fs : FS) (name : String) (e : StoreErr)
    (herr : (set_active_file st fs name).1 = Except.error e) :
    (set_active_file st fs name).2 = st := by
  simp only [set_active_file] at herr ⊢
  split_ifs at herr ⊢
  · rfl
  · rfl

/-- Witness for C10: activating a missing file leaves the store untouched. -/
theorem C10_error_atomic_witness :
    ((set_active_file ⟨["data"], "sitetime", none, none, none, none⟩ [] "missing.csv").1
        = Except.error StoreErr.fileNotFound) ∧
    (set_active_file ⟨["data"], "sitetime", none, none, none, none⟩ [] "missing.csv").2
        = ⟨["data"], "sitetime", none, none, none, none⟩ :=
  ⟨rfl, C10_error_atomic _ _ _ StoreErr.fileNotFound rfl⟩

/-- C4: a name resolving outside the sandbox root makes `set_active_file`
raise and leaves the store unchanged; whenever `set_active_file` succeeds the
resolved path and the new active pointer are inside the root; whenever
`save_upload` succeeds its target is inside the root, and whenever it fails
nothing is persisted. -/
theorem C4_sandbox_paths (st : Store) (fs : FS) (name : String)
    (hout : underDir st.data_dir (resolveAbs (joinName st.data_dir name)) = false) :
    (∃ e, (set_active_file st fs name).1 = Except.error e) ∧
    (set_active_file st fs name).2 = st ∧
    (∀ st2 fs2 name2 p, (set_active_file st2 fs2 name2).1 = Except.ok p →
      underDir st2.data_dir p = true ∧ (set_active_file st2 fs2 name2).2.active_file = some p) ∧
    (∀ st2 fs2 fn content now mt p,
      (save_upload st2 fs2 fn content now mt).1 = Except.ok p →
      underDir st2.data_dir p = true) ∧
    (∀ st2 fs2 fn content now mt e,
      (save_upload st2 fs2 fn content now mt).1 = Except.error e →
      (save_upload st2 fs2 fn content now mt).2.2 = fs2) := by
  refine ⟨?_, ?_, ?_, ?_, ?_⟩
  · simp only [set_active_file]
    by_cases hex : (assoc fs (resolveAbs (joinName st.data_dir name))).isNone = true
    · rw [if_pos hex]
      exact ⟨StoreErr.fileNotFound, rfl⟩
    · rw [if_neg hex, if_pos hout]
      exact ⟨StoreErr.valueError, rfl⟩
  · simp only [set_active_file]
    by_cases hex : (assoc fs (resolveAbs (joinName st.data_dir name))).isNone = true
    · rw [if_pos hex]
    · rw [if_neg hex, if_pos hout]
  · intro st2 fs2 name2 p hok
    simp only [set_active_file] at hok ⊢
    by_cases hex : (assoc fs2 (resolveAbs (joinName st2.data_dir name2))).isNone = true
    · rw [if_pos hex] at hok
      exact absurd hok (by simp)
    · by_cases hu : underDir st2.data_dir (resolveAbs (joinName st2.data_dir name2)) = false
      · rw [if_neg hex, if_pos hu] at hok
        exact absurd hok (by simp)
      · rw [if_neg hex, if_neg hu] at hok
        rw [if_neg hex, if_neg hu]
        have hp : resolveAbs (joinName st2.data_dir name2) = p := by
          simpa using hok
        simp only [Bool.not_eq_false] at hu
        constructor
        · rw [← hp]
          exact hu
        · show some (resolveAbs (joinName st2.data_dir name2)) = some p
          rw [hp]
  · intro st2 fs2 fn content now mt p hok
    cases fn with
    | none => exact absurd hok (by simp [save_upload])
    | some fn0 =>
      simp only [save_upload] at hok
      by_cases h0 : fn0 = ""
      · rw [if_pos h0] at hok
        exact absurd hok (by simp)
      · rw [if_neg h0] at hok
        by_cases hcsv :
            (List.isSuffixOf ['.', 'c', 's', 'v'] (lowerL (secure_filename fn0).data)) = false
        · rw [if_pos hcsv] at hok
          exact absurd hok (by simp)
        · rw [if_neg hcsv] at hok
          by_cases hu : underDir st2.data_dir
              (resolveAbs (st2.data_dir ++ [target_name (pathStem (secure_filename fn0)) now]))
                = false
          · rw [if_pos hu] at hok
            exact absurd hok (by simp)
          · rw [if_neg hu] at hok
            have hp : resolveAbs
                (st2.data_dir ++ [target_name (pathStem (secure_filename fn0)) now]) = p := by
              simpa using hok
            simp only [Bool.not_eq_false] at hu
            rw [← hp]
            exact hu
  · intro st2 fs2 fn content now mt e herr
    cases fn with
    | none => rfl
    | some fn0 =>
      simp only [save_upload] at herr ⊢
      by_cases h0 : fn0 = ""
      · rw [if_pos h0]
      · rw [if_neg h0] at herr ⊢
        by_cases hcsv :
            (List.isSuffixOf ['.', 'c', 's', 'v'] (lowerL (secure_filename fn0).data)) = false
        · rw [if_pos hcsv]
        · rw [if_neg hcsv] at herr ⊢
          by_cases hu : underDir st2.data_dir
              (resolveAbs (st2.data_dir ++ [target_name (pathStem (secure_filename fn0)) now]))
                = false
          · rw [if_pos hu]
          · rw [if_neg hu] at herr
            exact absurd herr (by simp)

/-- Witness for C4: `"../../etc/passwd"` resolves outside the sandbox root
`/srv/data`, is rejected, and the store is left untouched. -/
theorem C4_sandbox_paths_witness :
    (underDir (["srv", "data"] : List String)
        (resolveAbs (joinName ["srv", "data"] "../../etc/passwd")) = false) ∧
    (set_active_file ⟨["srv", "data"], "sitetime", none, none, none, none⟩ []
        "../../etc/passwd").2 = ⟨["srv", "data"], "sitetime", none, none, none, none⟩ ∧
    (set_active_file ⟨["srv", "data"], "sitetime", none, none, none, none⟩ []
        "../../etc/passwd").1 = Except.error StoreErr.fileNotFound :=
  ⟨by decide,
   (C4_sandbox_paths ⟨["srv", "data"], "sitetime", none, none, none, none⟩ []
      "../../etc/passwd" (by decide)).2.1,
   by decide⟩

/-- C5: a read right after a successful read, with no change to the active
pointer or the filesystem, returns the same data from the cache (hit flag
`true`, state unchanged); a read after the active file's modification time
changed reparses from disk and replaces the cache entry; a read right after
an active-pointer swap reparses from disk (the swap invalidated the cache). -/
theorem C5_cache_consistency :
    (∀ st fs df, (get_dataframe st fs).1 = Except.ok df →
      get_dataframe (get_dataframe st fs).2.1 fs
        = (Except.ok df, (get_dataframe st fs).2.1, true)) ∧
    (∀ st1 fs2 path f2, st1.active_file = some path →
      st1.cache_mtime ≠ some f2.mtime →
      assoc fs2 path = some f2 →
      get_dataframe st1 fs2 = (Except.ok (read_csv_fillna f2.raw),
        { st1 with cache_path := some path, cache_mtime := some f2.mtime,
                   cached_df := some (read_csv_fillna f2.raw) }, false)) ∧
    (∀ st fs name p f, (set_active_file st fs name).1 = Except.ok p →
      assoc fs p = some f →
      get_dataframe (set_active_file st fs name).2 fs
        = (Except.ok (read_csv_fillna f.raw),
           { (set_active_file st fs name).2 with
               cache_path := some p, cache_mtime := some f.mtime,
               cached_df := some (read_csv_fillna f.raw) }, false)) := by
  refine ⟨?_, ?_, ?_⟩
  · intro st fs df hok
    cases ha : st.active_file with
    | none =>
      simp only [get_dataframe, ha] at hok
      simp at hok
    | some path =>
      cases hf : assoc fs path with
      | none =>
        simp only [get_dataframe, ha, hf] at hok
        simp at hok
      | some file =>
        cases hc : st.cached_df with
        | some cdf =>
          by_cases hcond : st.cache_path = some path ∧ st.cache_mtime = some file.mtime
          · simp only [get_dataframe, ha, hf, hc, if_pos hcond] at hok ⊢
            simp only [Except.ok.injEq] at hok
            rw [hok]
          · simp only [get_dataframe, ha, hf, hc, if_neg hcond] at hok ⊢
            simp only [Except.ok.injEq] at hok
            simp [ha, hf, hok]
        | none =>
          simp only [get_dataframe, ha, hf, hc] at hok ⊢
          simp only [Except.ok.injEq] at hok
          simp [ha, hf, hok]
  · intro st1 fs2 path f2 hact hmt hlook
    have hcond : ¬ (st1.cache_path = some path ∧ st1.cache_mtime = some f2.mtime) :=
      fun hco => hmt hco.2
    cases hc : st1.cached_df with
    | some cdf => simp [get_dataframe, hact, hlook, hc, hcond]
    | none => simp [get_dataframe, hact, hlook, hc]
  · intro st fs name p f hok hlook
    simp only [set_active_file] at hok ⊢
    by_cases hex : (assoc fs (resolveAbs (joinName st.data_dir name))).isNone = true
    · rw [if_pos hex] at hok
      simp at hok
    · by_cases hu : underDir st.data_dir (resolveAbs (joinName st.data_dir name)) = false
      · rw [if_neg hex, if_pos hu] at hok
        simp at hok
      · rw [if_neg hex, if_neg hu] at hok ⊢
        have hp : resolveAbs (joinName st.data_dir name) = p := by simpa using hok
        simp [get_dataframe, hp, hlook]

/-- Witness for C5: a concrete store whose second read is a cache hit. -/
theorem C5_cache_consistency_witness :
    ((get_dataframe ⟨["data"], "sitetime", none, none, none, some ["data", "a.csv"]⟩
        [(["data", "a.csv"], ⟨5, ⟨["temp"], [[Cell.str "1"]]⟩⟩)]).1
      = Except.ok ⟨["temp"], [[Cell.str "1"]]⟩) ∧
    get_dataframe
        (get_dataframe ⟨["data"], "sitetime", none, none, none, some ["data", "a.csv"]⟩
          [(["data", "a.csv"], ⟨5, ⟨["temp"], [[Cell.str "1"]]⟩⟩)]).2.1
        [(["data", "a.csv"], ⟨5, ⟨["temp"], [[Cell.str "1"]]⟩⟩)]
      = (Except.ok ⟨["temp"], [[Cell.str "1"]]⟩,
         (get_dataframe ⟨["data"], "sitetime", none, none, none, some ["data", "a.csv"]⟩
           [(["data", "a.csv"], ⟨5, ⟨["temp"], [[Cell.str "1"]]⟩⟩)]).2.1, true) :=
  ⟨by decide,
   C5_cache_consistency.1 ⟨["data"], "sitetime", none, none, none, some ["data", "a.csv"]⟩
     [(["data", "a.csv"], ⟨5, ⟨["temp"], [[Cell.str "1"]]⟩⟩)]
     ⟨["temp"], [[Cell.str "1"]]⟩ (by decide)⟩

/-- C8 as stated is false: the timestamp suffix has one-second resolution, so
two successful uploads of the same filename within the same UTC second get
the same target path — the second one succeeds and overwrites the file the
first one persisted. -/
theorem C8_counterexample :
    (save_upload ⟨["data"], "sitetime", none, none, none, none⟩ []
        (some "machine.csv") ⟨["temp"], []⟩ ⟨2024, 5, 17, 12, 0, 3⟩ 100).1
      = Except.ok ["data", "machine_20240517-120003.csv"] ∧
    (save_upload
        (save_upload ⟨["data"], "sitetime", none, none, none, none⟩ []
          (some "machine.csv") ⟨["temp"], []⟩ ⟨2024, 5, 17, 12, 0, 3⟩ 100).2.1
        (save_upload ⟨["data"], "sitetime", none, none, none, none⟩ []
          (some "machine.csv") ⟨["temp"], []⟩ ⟨2024, 5, 17, 12, 0, 3⟩ 100).2.2
        (some "machine.csv") ⟨["pressure"], []⟩ ⟨2024, 5, 17, 12, 0, 3⟩ 101).1
      = Except.ok ["data", "machine_20240517-120003.csv"] ∧
    assoc
        (save_upload
          (save_upload ⟨["data"], "sitetime", none, none, none, none⟩ []
            (some "machine.csv") ⟨["temp"], []⟩ ⟨2024, 5, 17, 12, 0, 3⟩ 100).2.1
          (save_upload ⟨["data"], "sitetime", none, none, none, none⟩ []
            (some "machine.csv") ⟨["temp"], []⟩ ⟨2024, 5, 17, 12, 0, 3⟩ 100).2.2
          (some "machine.csv") ⟨["pressure"], []⟩ ⟨2024, 5, 17, 12, 0, 3⟩ 101).2.2
        ["data", "machine_20240517-120003.csv"]
      = some ⟨101, ⟨["pressure"], []⟩⟩ := by
  refine ⟨by decide, by decide, by decide⟩

/-- C8 amended: `save_upload` rejects a missing filename and a sanitized name
without the `.csv` extension; two successful uploads whose UTC timestamps
render to distinct second-resolution strings get distinct target paths and do
not overwrite each other (uploads within the same second may collide, as the
counterexample shows). -/
theorem C8_upload_validation :
    (∀ st fs content now mt,
      (save_upload st fs none content now mt).1 = Except.error StoreErr.valueError) ∧
    (∀ st fs fn0 content now mt,
      List.isSuffixOf ['.', 'c', 's', 'v'] (lowerL (secure_filename fn0).data) = false →
      (save_upload st fs (some fn0) content now mt).1 = Except.error StoreErr.valueError) ∧
    (∀ st st' fs fs' fn fn' c c' t t' mt mt' p p',
      st'.data_dir = st.data_dir →
      resolveAbs st.data_dir = st.data_dir →
      fmtTs t ≠ fmtTs t' →
      (save_upload st fs fn c t mt).1 = Except.ok p →
      (save_upload st' fs' fn' c' t' mt').1 = Except.ok p' →
      p ≠ p' ∧ assoc (save_upload st' fs' fn' c' t' mt').2.2 p = assoc fs' p) := by
  refine ⟨?_, ?_, ?_⟩
  · intro st fs content now mt
    rfl
  · intro st fs fn0 content now mt hcsv
    simp only [save_upload]
    by_cases h0 : fn0 = ""
    · rw [if_pos h0]
    · rw [if_neg h0, if_pos hcsv]
  · intro st st' fs fs' fn fn' c c' t t' mt mt' p p' hdir hdd hts hok hok'
    have hdd' : resolveAbs st'.data_dir = st'.data_dir := by rw [hdir]; exact hdd
    obtain ⟨fn1, -, hp, -⟩ := save_upload_ok_shape st fs fn c t mt p hdd hok
    obtain ⟨fn2, -, hp', hfs'⟩ := save_upload_ok_shape st' fs' fn' c' t' mt' p' hdd' hok'
    have hne : p ≠ p' := by
      intro he
      rw [hp, hp', hdir] at he
      have := List.append_cancel_left he
      simp only [List.cons.injEq, and_true] at this
      exact target_name_inj_ts _ _ _ _ hts this
    refine ⟨hne, ?_⟩
    rw [hfs']
    exact assoc_dictInsert_ne fs' p' ⟨mt', c'⟩ p hne

/-- Witness for C8 amended: two uploads of the same original filename one
second apart get distinct paths, and the second leaves the first file
intact. -/
theorem C8_upload_validation_witness :
    ((save_upload ⟨["data"], "sitetime", none, none, none, none⟩ [] none
        ⟨["temp"], []⟩ ⟨2024, 5, 17, 12, 0, 3⟩ 100).1 = Except.error StoreErr.valueError) ∧
    ((save_upload ⟨["data"], "sitetime", none, none, none, none⟩ [] (some "notes.txt")
        ⟨["temp"], []⟩ ⟨2024, 5, 17, 12, 0, 3⟩ 100).1 = Except.error StoreErr.valueError) ∧
    (["data", "machine_20240517-120003.csv"] : List String)
        ≠ ["data", "machine_20240517-120004.csv"] ∧
    (((save_upload ⟨["data"], "sitetime", none, none, none, none⟩ []
          (some "machine.csv") ⟨["temp"], []⟩ ⟨2024, 5, 17, 12, 0, 3⟩ 100).1
        = Except.ok ["data", "machine_20240517-120003.csv"]) ∧
     ((save_upload ⟨["data"], "sitetime", none, none, none, none⟩ []
          (some "machine.csv") ⟨["pressure"], []⟩ ⟨2024, 5, 17, 12, 0, 4⟩ 101).1
        = Except.ok ["data", "machine_20240517-120004.csv"]) ∧
     (["data", "machine_20240517-120003.csv"] : List String)
        ≠ ["data", "machine_20240517-120004.csv"] ∧
     assoc (save_upload ⟨["data"], "sitetime", none, none, none, none⟩ []
          (some "machine.csv") ⟨["pressure"], []⟩ ⟨2024, 5, 17, 12, 0, 4⟩ 101).2.2
        ["data", "machine_20240517-120003.csv"]
        = assoc ([] : FS) ["data", "machine_20240517-120003.csv"]) :=
  ⟨C8_upload_validation.1 _ _ _ _ _,
   C8_upload_validation.2.1 ⟨["data"], "sitetime", none, none, none, none⟩ [] "notes.txt"
     ⟨["temp"], []⟩ ⟨2024, 5, 17, 12, 0, 3⟩ 100 (by decide),
   by decide,
   by decide,
   by decide,
   C8_upload_validation.2.2 ⟨["data"], "sitetime", none, none, none, none⟩
     ⟨["data"], "sitetime", none, none, none, none⟩ [] []
     (some "machine.csv") (some "machine.csv") ⟨["temp"], []⟩ ⟨["pressure"], []⟩
     ⟨2024, 5, 17, 12, 0, 3⟩ ⟨2024, 5, 17, 12, 0, 4⟩ 100 101
     ["data", "machine_20240517-120003.csv"] ["data", "machine_20240517-120004.csv"]
     rfl (by decide) (by decide) (by decide) (by decide)⟩

end OpcuaSim
